import Mathlib

set_option maxHeartbeats 1000000
set_option maxRecDepth 4000

namespace MMOrf

/-! Shallow embedding of the ORF scanner of `src/commons/Orf.cpp` (MMseqs2).

Bytes are modelled as `Nat` values (the byte value, 0..255); buffers as `List Nat`
holding the real content, with the sentinel padding that `Orf::setSequence` writes
after the content modelled by `byteAt` returning `CHAR_MAX` past the end of the list.
The types declared in the header `Orf.h` (which is not part of the sources) are
modelled from the spec where noted. -/

/-- CHAR_MAX from climits: the sentinel byte value written after the real sequence
content (`Orf::setSequence`, lines 134-137). -/
def CHAR_MAX : Nat := 127

/-- Modelled from the spec: the `Strand` tag (`PLUS` | `MINUS`) declared in the
missing header Orf.h (spec section 3). -/
inductive Strand where
  | STRAND_PLUS
  | STRAND_MINUS
  deriving DecidableEq, Repr

/-- Modelled from the spec: `SequenceLocation` is declared in the missing header
Orf.h (spec section 3). The `id` field is omitted: no operation modelled here
assigns it. The C fields `from` and `to` are Lean keywords and are rendered `fromPos` and `toPos`. -/
structure SequenceLocation where
  fromPos : Nat
  toPos : Nat
  hasIncompleteStart : Bool
  hasIncompleteEnd : Bool
  strand : Strand
  deriving DecidableEq, Repr

/-- Modelled from the spec: the start-mode enumeration `START_TO_STOP`,
`ANY_TO_STOP`, `LAST_START_TO_STOP` declared in the missing header Orf.h (spec
section 6). In `findForward` the third mode is the `else` branch of the cascade,
which a three-constructor type reproduces exactly. -/
inductive StartMode where
  | START_TO_STOP
  | ANY_TO_STOP
  | LAST_START_TO_STOP
  deriving DecidableEq, Repr

/-- The 256-entry IUPAC reverse-complement lookup table (`iupacReverseComplementTable`
in Orf.cpp, lines 47-51); a dot marks a byte with no defined complement. -/
def iupacReverseComplementTable : String :=
  "................................................................" ++
  ".TVGH..CD..M.KN...YSAABW.R.......tvgh..cd..m.kn...ysaabw.r......" ++
  "................................................................" ++
  "................................................................"

/-- The `complement` function (line 53): a table lookup; 46 is the byte of `'.'`. -/
def complement (c : Nat) : Nat :=
  (iupacReverseComplementTable.toList.getD c '.').toNat

/-- One byte of the normalization loop of `Orf::setSequence` (lines 120-125):
`sequence[i] = seq[i] & ~0x20` followed by the `U -> T` replacement
(85 is `'U'`, 84 is `'T'`). -/
def normalizeByte (b : Nat) : Nat :=
  let u := b &&& 0xDF
  if u = 85 then 84 else u

/-- The reverse-complement construction of `Orf::setSequence` (lines 127-128):
`reverseComplement[i] = complement(sequence[sequenceLength - i - 1])`. -/
def reverseComplementOf (fwd : List Nat) : List Nat :=
  fwd.reverse.map complement

/-- The buffer-owning part of the `Orf` object: normalized forward buffer,
reverse-complement buffer, and stored length. Buffers are modelled by their
content; capacity management (lines 111-117) has no observable effect on the
content and is not modelled. -/
structure Orf where
  sequence : List Nat
  reverseComplement : List Nat
  sequenceLength : Nat
  deriving DecidableEq, Repr

/-- `Orf::setSequence` (lines 106-140). On a complementation failure the C code
has already overwritten the forward buffer and the prefix of the reverse buffer
up to and including the failing position; the bytes past that point are stale
memory and are modelled by the written prefix only (no claim inspects them).
The sentinel padding written at lines 134-137 is modelled by `byteAt` below. -/
def setSequence (orf : Orf) (seq : List Nat) : Bool × Orf :=
  if seq.length < 3 then (false, orf)
  else
    let fwd := seq.map normalizeByte
    let rc := reverseComplementOf fwd
    if rc.contains 46 then
      (false, { orf with sequence := fwd, sequenceLength := seq.length,
                         reverseComplement := rc.takeWhile (fun b => b != 46) ++ [46] })
    else
      (true, { sequence := fwd, reverseComplement := rc, sequenceLength := seq.length })

/-- A codon window: three consecutive buffer bytes. -/
abbrev Codon := Nat × Nat × Nat

/-- Byte access into a scan buffer: past the real content the buffers hold the
`CHAR_MAX` sentinel padding written by `Orf::setSequence`. -/
def byteAt (seq : List Nat) (i : Nat) : Nat := seq.getD i CHAR_MAX

/-- The codon window starting at byte `p` (`sequence + position` in the C code). -/
def codonAt (seq : List Nat) (p : Nat) : Codon :=
  (byteAt seq p, byteAt seq (p + 1), byteAt seq (p + 2))

/-- `isIncomplete` (line 173): the window runs into the sentinel padding. -/
def isIncomplete (c : Codon) : Bool :=
  c.1 == CHAR_MAX || c.2.1 == CHAR_MAX || c.2.2 == CHAR_MAX

/-- `isGapOrN` (line 177): the window holds an `'N'` (byte 78) or a byte with no
defined complement. -/
def isGapOrN (c : Codon) : Bool :=
  c.1 == 78 || complement c.1 == 46 ||
  c.2.1 == 78 || complement c.2.1 == 46 ||
  c.2.2 == 78 || complement c.2.2 == 46

/-- The `isLast` test of `findForward` (line 253): this window is complete but the
window three bytes further on is not. -/
def isLastWindow (seq : List Nat) (p : Nat) : Bool :=
  !isIncomplete (codonAt seq p) && isIncomplete (codonAt seq (p + 3))

/-- `isInCodons` (lines 183-208): the batched comparison of one 3-byte window
against the four-byte table slots. The tables are built by `memset 0` followed by
one codon per slot (`Orf::Orf`, lines 60-66 and 81-87), so slots past the real
codons hold `(0,0,0)`. `findForward` calls the 4-slot variant when the table has
at most 4 codons and the 8-slot variant otherwise (lines 263-264, 269-270,
291-292); that dispatch is folded into this definition via the table length. The
4-slot variant compares against exactly the four slots of the first vector
(including its zero slots when the table has fewer than 4 codons, but never the
slots 4-7). The 8-slot variant follows the non-AVX2 reading of lines 201-207,
which returns a match in the FIRST four slots AND a match in the LAST four
slots — not any-slot membership. (The AVX2 build instead compares one 256-bit
vector, i.e. all eight slots, for plain membership in both variants; the non-AVX2
text is the one modelled, and no claim instantiates a table of more than 4
codons.) -/
def isInCodons (codon : Codon) (codons : List Codon) : Bool :=
  if codons.length > 4 then
    ((codons ++ List.replicate (8 - codons.length) (0, 0, 0)).take 4).contains codon
      && ((codons ++ List.replicate (8 - codons.length) (0, 0, 0)).drop 4).contains codon
  else
    (codons ++ List.replicate (4 - codons.length) (0, 0, 0)).contains codon

/-- Modelled from the spec: the per-frame bitmask constants `FRAME_1`, `FRAME_2`,
`FRAME_3` from the missing header Orf.h (spec section 6: bitmask values selecting
which of the three reading-frame phases participate). -/
def frameLookup (frame : Nat) : Nat :=
  if frame = 0 then 1 else if frame = 1 then 2 else 4

/-- The per-frame state-machine registers of `Orf::findForward` (lines 227-234). -/
structure FrameState where
  isInsideOrf : Bool
  hasStartCodon : Bool
  countGaps : Nat
  countLength : Nat
  fromPos : Nat
  deriving DecidableEq, Repr

/-- The `shouldStart` decision of `findForward` (lines 260-271). -/
def shouldStartFlag (startMode : StartMode) (startCodons : List Codon)
    (isInsideOrf : Bool) (codon : Codon) : Bool :=
  match startMode with
  | .START_TO_STOP => isInsideOrf == false && isInCodons codon startCodons
  | .ANY_TO_STOP => isInsideOrf == false
  | .LAST_START_TO_STOP => isInCodons codon startCodons

/-- The state mutation of a taken start (lines 275-280). -/
def takeStart (st : FrameState) (position : Nat) : FrameState :=
  { st with isInsideOrf := true, hasStartCodon := true, fromPos := position,
            countGaps := 0, countLength := 0 }

/-- Lines 260-281 of `findForward`: compute `shouldStart` and take the start unless
the window is the last one. -/
def startPhase (startCodons : List Codon) (startMode : StartMode) (seq : List Nat)
    (st : FrameState) (position : Nat) : FrameState :=
  if shouldStartFlag startMode startCodons st.isInsideOrf (codonAt seq position)
      && !isLastWindow seq position then
    takeStart st position
  else st

/-- Lines 283-289 of `findForward`: while inside an ORF count the window and, when
it is a gap window, count the gap. -/
def accountPhase (seq : List Nat) (st : FrameState) (position : Nat) : FrameState :=
  if st.isInsideOrf then
    { st with countLength := st.countLength + 1,
              countGaps := st.countGaps + (if isGapOrN (codonAt seq position) then 1 else 0) }
  else st

/-- Lines 291-313 of `findForward`: the stop test, the closing of the ORF, the
degenerate `to == from` skip, the gap/length filters and the emission. The C
`assert(to > from[frame])` at line 303 is unreachable failure (proved below) and
has no effect on the returned value. -/
def closePhase (stopCodons : List Codon) (minLength maxLength maxGaps : Nat)
    (strand : Strand) (seq : List Nat) (st : FrameState) (position : Nat) :
    FrameState × Option SequenceLocation :=
  if st.isInsideOrf && (isInCodons (codonAt seq position) stopCodons
      || isLastWindow seq position) then
    if position + (if isLastWindow seq position then 3 else 0) = st.fromPos then
      ({ st with isInsideOrf := false }, none)
    else if st.countGaps > maxGaps ∨ st.countLength > maxLength
        ∨ st.countLength ≤ minLength then
      ({ st with isInsideOrf := false }, none)
    else
      ({ st with isInsideOrf := false },
        some ⟨st.fromPos, position + (if isLastWindow seq position then 3 else 0),
              !st.hasStartCodon, !(isInCodons (codonAt seq position) stopCodons),
              strand⟩)
  else (st, none)

/-- The whole per-window body of `findForward` for the window's own frame
(lines 244-313, given that the frame passed the mask test). -/
def processWindow (startCodons stopCodons : List Codon)
    (minLength maxLength maxGaps : Nat) (startMode : StartMode) (strand : Strand)
    (seq : List Nat) (st : FrameState) (position : Nat) :
    FrameState × Option SequenceLocation :=
  closePhase stopCodons minLength maxLength maxGaps strand seq
    (accountPhase seq (startPhase startCodons startMode seq st position) position)
    position

/-- The three per-frame states (parallel arrays in the C code) and the shared
result vector. -/
structure ScanState where
  frame0 : FrameState
  frame1 : FrameState
  frame2 : FrameState
  result : List SequenceLocation
  deriving DecidableEq, Repr

/-- Array read `state[frame]` for `frame = position % 3`. -/
def ScanState.frame (s : ScanState) (f : Nat) : FrameState :=
  if f = 0 then s.frame0 else if f = 1 then s.frame1 else s.frame2

/-- Array write `state[frame] = st`. -/
def ScanState.setFrame (s : ScanState) (f : Nat) (st : FrameState) : ScanState :=
  if f = 0 then { s with frame0 := st }
  else if f = 1 then { s with frame1 := st }
  else { s with frame2 := st }

/-- One iteration of the inner `position` loop of `findForward` (lines 243-315):
skip the window when its frame is outside the mask, otherwise run the window body
and append the emitted location, if any, to the result. -/
def scanStep (startCodons stopCodons : List Codon)
    (minLength maxLength maxGaps frames : Nat) (startMode : StartMode)
    (strand : Strand) (seq : List Nat) (s : ScanState) (position : Nat) : ScanState :=
  if frames &&& frameLookup (position % 3) = 0 then s
  else
    { s.setFrame (position % 3)
        (processWindow startCodons stopCodons minLength maxLength maxGaps startMode
          strand seq (s.frame (position % 3)) position).1 with
      result := s.result ++
        (processWindow startCodons stopCodons minLength maxLength maxGaps startMode
          strand seq (s.frame (position % 3)) position).2.toList }

/-- The initial per-frame register values (lines 227-234): every frame starts
inside an ORF, without a start codon, with `from[frame] = frameOffset[frame]`. -/
def initFrameState (frameOffset : Nat) : FrameState :=
  ⟨true, false, 0, 0, frameOffset⟩

/-- The scan state at loop entry, over a caller-supplied result vector. -/
def initScanState (result : List SequenceLocation) : ScanState :=
  ⟨initFrameState 0, initFrameState 1, initFrameState 2, result⟩

/-- The number of byte positions the double loop of `findForward` visits: the outer
loop runs `i = 0, 3, ...` while `i < sequenceLength - 2` and the inner loop visits
`i, i+1, i+2`, so positions `0 ..< 3 * (sequenceLength / 3)` are visited. (For
`sequenceLength < 2` the C subtraction `sequenceLength - (FRAMES - 1)` underflows
and the loop reads wild memory; that case is unreachable, `setSequence` rejects
lengths below 3, and is not modelled.) -/
def numPositions (sequenceLength : Nat) : Nat :=
  3 * (sequenceLength / 3)

/-- The scan state after the first `n` positions of `findForward`. -/
def scanAux (startCodons stopCodons : List Codon) (seq : List Nat)
    (result : List SequenceLocation) (minLength maxLength maxGaps frames : Nat)
    (startMode : StartMode) (strand : Strand) (n : Nat) : ScanState :=
  (List.range n).foldl
    (scanStep startCodons stopCodons minLength maxLength maxGaps frames startMode strand seq)
    (initScanState result)

/-- `Orf::findForward` (lines 210-317): the result vector after the whole scan.
The C code appends to the caller's vector `result`; the model takes the incoming
vector and returns the final one. -/
def findForward (startCodons stopCodons : List Codon) (seq : List Nat)
    (result : List SequenceLocation) (minLength maxLength maxGaps frames : Nat)
    (startMode : StartMode) (strand : Strand) : List SequenceLocation :=
  (scanAux startCodons stopCodons seq result minLength maxLength maxGaps frames
    startMode strand (numPositions seq.length)).result

/-- `Orf::findAll` (lines 153-171): one forward pass when the forward mask is
non-zero, then one pass over the reverse complement when the reverse mask is
non-zero, chaining the result vector. -/
def findAll (startCodons stopCodons : List Codon) (orf : Orf)
    (result : List SequenceLocation) (minLength maxLength maxGaps : Nat)
    (forwardFrames reverseFrames : Nat) (startMode : StartMode) :
    List SequenceLocation :=
  if reverseFrames ≠ 0 then
    findForward startCodons stopCodons orf.reverseComplement
      (if forwardFrames ≠ 0 then
        findForward startCodons stopCodons orf.sequence result minLength maxLength
          maxGaps forwardFrames startMode .STRAND_PLUS
      else result)
      minLength maxLength maxGaps reverseFrames startMode .STRAND_MINUS
  else
    if forwardFrames ≠ 0 then
      findForward startCodons stopCodons orf.sequence result minLength maxLength
        maxGaps forwardFrames startMode .STRAND_PLUS
    else result

/-- `Orf::getSequence` (lines 142-151): a view into the strand's buffer, modelled
as the extracted sublist together with the length field. The C `assert` and the
null-buffer fallback are not modelled (model buffers always exist). -/
def getSequence (orf : Orf) (location : SequenceLocation) : List Nat × Nat :=
  let length := location.toPos - location.fromPos
  match location.strand with
  | .STRAND_PLUS => ((orf.sequence.drop location.fromPos).take length, length)
  | .STRAND_MINUS => ((orf.reverseComplement.drop location.fromPos).take length, length)

/-- The number of windows of frame `f` at positions `lo ≤ q < n` — the windows a
frame visits between (re)opening its ORF at `lo` and position `n` exclusive. -/
def visitedCount (f lo n : Nat) : Nat :=
  ((List.range n).filter (fun q => q % 3 == f && decide (lo ≤ q))).length

/-- Like `visitedCount`, restricted to gap windows (`isGapOrN`). -/
def gapVisited (seq : List Nat) (f lo n : Nat) : Nat :=
  ((List.range n).filter
    (fun q => q % 3 == f && decide (lo ≤ q) && isGapOrN (codonAt seq q))).length

/-- The well-formedness facts guaranteed for every location the scan appends
(over a scanned buffer of length `seqLen`): used for claims C3 and C10. -/
abbrev okLoc (seqLen : Nat) (strand : Strand) (loc : SequenceLocation) : Prop :=
  loc.fromPos < loc.toPos ∧ loc.toPos ≤ seqLen ∧
    (loc.toPos - loc.fromPos) % 3 = 0 ∧ loc.strand = strand

/-- The per-frame register facts maintained after `n` scan positions: the opening
offset stays in its frame's residue class and behind the scan front, and while
inside an ORF the two counters count exactly the windows of this frame visited
since the opening offset. -/
abbrev frameInv (frames : Nat) (seq : List Nat) (n f : Nat) (st : FrameState) : Prop :=
  st.fromPos % 3 = f ∧ (st.fromPos = f ∨ st.fromPos < n) ∧
  (frames &&& frameLookup f ≠ 0 → st.isInsideOrf = true →
    st.countLength = visitedCount f st.fromPos n ∧
    st.countGaps = gapVisited seq f st.fromPos n)

/-- The whole scan invariant after `n` positions. -/
abbrev scanInv (result0 : List SequenceLocation) (frames : Nat) (seq : List Nat)
    (strand : Strand) (n : Nat) (s : ScanState) : Prop :=
  (∀ loc ∈ s.result, loc ∈ result0 ∨ okLoc seq.length strand loc) ∧
  ∀ f, f < 3 → frameInv frames seq n f (s.frame f)

/-! Facts about the complement table and the normalization to uppercase. -/

lemma iupac_table_length : iupacReverseComplementTable.toList.length = 256 := by
  decide

lemma complement_eq_dot_of_ge (b : Nat) (h : 256 ≤ b) : complement b = 46 := by
  unfold complement
  have hlen : iupacReverseComplementTable.toList.length ≤ b := by
    rw [iupac_table_length]; omega
  rw [List.getD_eq_default _ _ hlen]
  decide

lemma complement_invol_aux : ∀ b < 256, normalizeByte b = b → complement b ≠ 46 →
    complement (complement b) = b := by
  decide

lemma map_complement_twice (s : List Nat)
    (h : ∀ b ∈ s, complement (complement b) = b) :
    (s.map complement).map complement = s := by
  induction s with
  | nil => rfl
  | cons a t ih =>
    simp only [List.map_cons, List.cons.injEq]
    exact ⟨h a (List.mem_cons_self a t), ih (fun b hb => h b (List.mem_cons_of_mem a hb))⟩

/-- C7: for every input of length smaller than 3 (length 0, 1 or 2), `setSequence`
returns `false` and leaves the forward buffer, the reverse-complement buffer and
the stored sequence length unchanged. -/
theorem setSequence_short_rejected (orf : Orf) (seq : List Nat)
    (h : seq.length < 3) : setSequence orf seq = (false, orf) := by
  unfold setSequence
  simp [h]

/-- Witness for C7 at a concrete length-2 input. -/
theorem setSequence_short_rejected_witness :
    setSequence ⟨[65], [84], 1⟩ [65, 84] = (false, ⟨[65], [84], 1⟩) :=
  setSequence_short_rejected ⟨[65], [84], 1⟩ [65, 84] (by decide)

/-- C8: on sequences whose bytes are normalized (fixed points of `normalizeByte`)
and all carry a defined IUPAC complement, the reversal-plus-complement map
`reverseComplementOf` — the construction `setSequence` uses for the
reverse-complement buffer — is an involution. -/
theorem reverseComplement_involution (s : List Nat)
    (h : ∀ b ∈ s, normalizeByte b = b ∧ complement b ≠ 46) :
    reverseComplementOf (reverseComplementOf s) = s := by
  have key : ∀ b ∈ s, complement (complement b) = b := by
    intro b hb
    have hlt : b < 256 := by
      by_contra hge
      exact (h b hb).2 (complement_eq_dot_of_ge b (by omega))
    exact complement_invol_aux b hlt (h b hb).1 (h b hb).2
  have h2 : reverseComplementOf (reverseComplementOf s)
      = (s.map complement).map complement := by
    simp only [reverseComplementOf, List.map_reverse, List.reverse_reverse]
  rw [h2]
  exact map_complement_twice s key

/-- Witness for C8 on the normalized sequence ATG. -/
theorem reverseComplement_involution_witness :
    reverseComplementOf (reverseComplementOf [65, 84, 71]) = [65, 84, 71] :=
  reverseComplement_involution [65, 84, 71] (by decide)

/-- C9 counterexample: byte 48 (the digit `'0'`) is outside the accepted
nucleotide alphabet (its complement is undefined), yet `setSequence` stores it in
the forward buffer as 16, not verbatim: the normalization `seq[i] & ~0x20` alters
every byte whose 0x20 bit is set. -/
theorem normalization_not_verbatim_counterexample :
    complement 48 = 46 ∧
    (setSequence ⟨[], [], 0⟩ [48, 65, 65]).2.sequence = [16, 65, 65] ∧
    ¬ (setSequence ⟨[], [], 0⟩ [48, 65, 65]).2.sequence = [48, 65, 65] := by
  decide

/-- C9 amended: normalization clears bit 0x20 of every byte — so lowercase
letters other than `'u'` are forced to uppercase, while `'U'` and `'u'` become
`'T'` — and a
byte is stored verbatim exactly when its 0x20 bit is already clear and it is not
`'U'`; any byte with the 0x20 bit set, also one outside the accepted nucleotide
alphabet, is stored as `b - 32` (with the `U -> T` replacement applied to the
masked value). -/
theorem normalization_amended (b : Nat) (h : b < 256) :
    (97 ≤ b ∧ b ≤ 122 ∧ b ≠ 117 → normalizeByte b = b - 32) ∧
    (b &&& 0xDF = 85 → normalizeByte b = 84) ∧
    (b &&& 0x20 = 0 ∧ b ≠ 85 → normalizeByte b = b) ∧
    (b &&& 0x20 ≠ 0 → normalizeByte b = (if b - 32 = 85 then 84 else b - 32)) := by
  revert b
  decide

/-- Witness for the amended C9 at the lowercase byte 97. -/
theorem normalization_amended_witness :
    (97 ≤ 97 ∧ 97 ≤ 122 ∧ 97 ≠ 117 → normalizeByte 97 = 97 - 32) ∧
    (97 &&& 0xDF = 85 → normalizeByte 97 = 84) ∧
    (97 &&& 0x20 = 0 ∧ 97 ≠ 85 → normalizeByte 97 = 97) ∧
    (97 &&& 0x20 ≠ 0 → normalizeByte 97 = (if 97 - 32 = 85 then 84 else 97 - 32)) :=
  normalization_amended 97 (by decide)

lemma accountPhase_fromPos (seq : List Nat) (st : FrameState) (p : Nat) :
    (accountPhase seq st p).fromPos = st.fromPos := by
  unfold accountPhase
  split <;> rfl

lemma accountPhase_isInsideOrf (seq : List Nat) (st : FrameState) (p : Nat) :
    (accountPhase seq st p).isInsideOrf = st.isInsideOrf := by
  unfold accountPhase
  split <;> rfl

lemma accountPhase_hasStartCodon (seq : List Nat) (st : FrameState) (p : Nat) :
    (accountPhase seq st p).hasStartCodon = st.hasStartCodon := by
  unfold accountPhase
  split <;> rfl

lemma closePhase_fst_fromPos (stopCodons : List Codon)
    (minLength maxLength maxGaps : Nat) (strand : Strand) (seq : List Nat)
    (st : FrameState) (p : Nat) :
    (closePhase stopCodons minLength maxLength maxGaps strand seq st p).1.fromPos
      = st.fromPos := by
  unfold closePhase
  split_ifs <;> rfl

/-- C1 counterexample: for `ATGAAATAA` under `START_TO_STOP` with start set
`{ATG}`, stop set `{TAA}`, frame mask 1 (frame 0 only), `minLength = 0`,
`maxLength = 100`, `maxGaps = 0`, the scan does NOT produce the claimed location
with `hasIncompleteStart = false`: the initial inside-an-ORF seed state means the
`ATG` at position 0 is never taken as a start. -/
theorem c1_start_to_stop_counterexample :
    ¬ findForward [(65, 84, 71)] [(84, 65, 65)]
        [65, 84, 71, 65, 65, 65, 84, 65, 65] [] 0 100 0 1
        .START_TO_STOP .STRAND_PLUS
      = [⟨0, 9, false, false, .STRAND_PLUS⟩] ∧
    ¬ (⟨0, 9, false, false, .STRAND_PLUS⟩ : SequenceLocation) ∈
      findForward [(65, 84, 71)] [(84, 65, 65)]
        [65, 84, 71, 65, 65, 65, 84, 65, 65] [] 0 100 0 1
        .START_TO_STOP .STRAND_PLUS := by
  decide

/-- C1 amended: same inputs, and the scan emits exactly one PLUS location with
`from = 0`, `to = 9`, `hasIncompleteEnd = false` — but `hasIncompleteStart = true`
(every phase is seeded inside an ORF, so under `START_TO_STOP` the `ATG` at
position 0 is not recognized and no start codon is ever recorded). -/
theorem c1_start_to_stop_amended :
    findForward [(65, 84, 71)] [(84, 65, 65)]
        [65, 84, 71, 65, 65, 65, 84, 65, 65] [] 0 100 0 1
        .START_TO_STOP .STRAND_PLUS
      = [⟨0, 9, true, false, .STRAND_PLUS⟩] := by
  decide

/-- C2 counterexample: for `TAAATGCCC` (stop `TAA` at position 0) with start set
`{ATG}`, stop set `{TAA}`, frame mask 1, `minLength = 0`, `maxLength = 100`,
`maxGaps = 0`, no location `from = 0, to = 3, hasIncompleteStart = true,
hasIncompleteEnd = false` is emitted under any of the three start modes: the
closure at position 0 has `to = 0` equal to the seeded opening offset 0 and is
silently skipped. -/
theorem c2_stop_at_zero_counterexample :
    ¬ (⟨0, 3, true, false, .STRAND_PLUS⟩ : SequenceLocation) ∈
      findForward [(65, 84, 71)] [(84, 65, 65)]
        [84, 65, 65, 65, 84, 71, 67, 67, 67] [] 0 100 0 1
        .START_TO_STOP .STRAND_PLUS ∧
    ¬ (⟨0, 3, true, false, .STRAND_PLUS⟩ : SequenceLocation) ∈
      findForward [(65, 84, 71)] [(84, 65, 65)]
        [84, 65, 65, 65, 84, 71, 67, 67, 67] [] 0 100 0 1
        .ANY_TO_STOP .STRAND_PLUS ∧
    ¬ (⟨0, 3, true, false, .STRAND_PLUS⟩ : SequenceLocation) ∈
      findForward [(65, 84, 71)] [(84, 65, 65)]
        [84, 65, 65, 65, 84, 71, 67, 67, 67] [] 0 100 0 1
        .LAST_START_TO_STOP .STRAND_PLUS := by
  decide

/-- C2 amended: on `TAAATGCCC` the stop at position 0 closes phase 0 with a
closing offset equal to the seeded opening offset (`to = 0 = from`), so that
closure emits nothing (the degenerate-closure skip); under `START_TO_STOP` the
phase's only emitted location is `from = 3, to = 9, hasIncompleteStart = false,
hasIncompleteEnd = true`. -/
theorem c2_stop_at_zero_amended :
    findForward [(65, 84, 71)] [(84, 65, 65)]
        [84, 65, 65, 65, 84, 71, 67, 67, 67] [] 0 100 0 1
        .START_TO_STOP .STRAND_PLUS
      = [⟨3, 9, false, true, .STRAND_PLUS⟩] := by
  decide

/-- C5: under `LAST_START_TO_STOP`, a visited non-last window matching a start
codon — "matching" in the program's sense, i.e. the batched matcher `isInCodons`
fires for the start table, which for the modelled non-AVX2 build is slot
membership for tables of at most 4 codons and a match in both vector halves for
larger tables — re-anchors the phase, even while already inside an ORF (the
state `st` is arbitrary): the opening offset becomes the window position, the
run-length and gap counters are reset to 0, the phase is inside an ORF with a
recorded start codon, and the full window body keeps the re-anchored opening
offset; and under every start mode a start is never taken on a last window (the
start stage leaves the state untouched there). -/
theorem last_start_reanchors_and_no_start_on_last :
    (∀ (startCodons stopCodons : List Codon) (minLength maxLength maxGaps : Nat)
      (strand : Strand) (seq : List Nat) (st : FrameState) (p : Nat),
      isInCodons (codonAt seq p) startCodons = true →
      isLastWindow seq p = false →
      (startPhase startCodons .LAST_START_TO_STOP seq st p).fromPos = p ∧
      (startPhase startCodons .LAST_START_TO_STOP seq st p).countLength = 0 ∧
      (startPhase startCodons .LAST_START_TO_STOP seq st p).countGaps = 0 ∧
      (startPhase startCodons .LAST_START_TO_STOP seq st p).isInsideOrf = true ∧
      (startPhase startCodons .LAST_START_TO_STOP seq st p).hasStartCodon = true ∧
      (processWindow startCodons stopCodons minLength maxLength maxGaps
        .LAST_START_TO_STOP strand seq st p).1.fromPos = p) ∧
    (∀ (startCodons : List Codon) (startMode : StartMode) (seq : List Nat)
      (st : FrameState) (p : Nat),
      isLastWindow seq p = true →
      startPhase startCodons startMode seq st p = st) := by
  constructor
  · intro startCodons stopCodons minLength maxLength maxGaps strand seq st p hstart hlast
    have hsp : startPhase startCodons .LAST_START_TO_STOP seq st p = takeStart st p := by
      unfold startPhase shouldStartFlag
      simp [hstart, hlast]
    refine ⟨by rw [hsp]; rfl, by rw [hsp]; rfl, by rw [hsp]; rfl,
      by rw [hsp]; rfl, by rw [hsp]; rfl, ?_⟩
    unfold processWindow
    rw [hsp]
    rw [closePhase_fst_fromPos, accountPhase_fromPos]
    rfl
  · intro startCodons startMode seq st p hlast
    unfold startPhase
    simp [hlast]

/-- Witness for C5: part one on `ATGAAATAA` at position 0 (ATG, not last, state
still seeded inside an ORF), part two on the same buffer at the last window 6. -/
theorem last_start_reanchors_witness :
    ((startPhase [(65, 84, 71)] .LAST_START_TO_STOP
        [65, 84, 71, 65, 65, 65, 84, 65, 65] (initFrameState 0) 0).fromPos = 0 ∧
      (startPhase [(65, 84, 71)] .LAST_START_TO_STOP
        [65, 84, 71, 65, 65, 65, 84, 65, 65] (initFrameState 0) 0).countLength = 0 ∧
      (startPhase [(65, 84, 71)] .LAST_START_TO_STOP
        [65, 84, 71, 65, 65, 65, 84, 65, 65] (initFrameState 0) 0).countGaps = 0 ∧
      (startPhase [(65, 84, 71)] .LAST_START_TO_STOP
        [65, 84, 71, 65, 65, 65, 84, 65, 65] (initFrameState 0) 0).isInsideOrf = true ∧
      (startPhase [(65, 84, 71)] .LAST_START_TO_STOP
        [65, 84, 71, 65, 65, 65, 84, 65, 65] (initFrameState 0) 0).hasStartCodon = true ∧
      (processWindow [(65, 84, 71)] [(84, 65, 65)] 0 100 0 .LAST_START_TO_STOP
        .STRAND_PLUS [65, 84, 71, 65, 65, 65, 84, 65, 65]
        (initFrameState 0) 0).1.fromPos = 0) ∧
    startPhase [(65, 84, 71)] .START_TO_STOP
      [65, 84, 71, 65, 65, 65, 84, 65, 65] ⟨true, false, 0, 2, 0⟩ 6
      = ⟨true, false, 0, 2, 0⟩ :=
  ⟨last_start_reanchors_and_no_start_on_last.1 [(65, 84, 71)] [(84, 65, 65)]
      0 100 0 .STRAND_PLUS [65, 84, 71, 65, 65, 65, 84, 65, 65]
      (initFrameState 0) 0 (by decide) (by decide),
    last_start_reanchors_and_no_start_on_last.2 [(65, 84, 71)] .START_TO_STOP
      [65, 84, 71, 65, 65, 65, 84, 65, 65] ⟨true, false, 0, 2, 0⟩ 6 (by decide)⟩

/-- C6: whenever a phase inside an ORF meets the closing condition with a closing
offset equal to its opening offset (a stop at the exact window where the ORF
opened, e.g. the first codon of the buffer under the seeded inside-an-ORF state),
the closing stage emits nothing, signals no error (it is a total function and the
C assert at line 303 sits after the skip), and still marks the phase as outside
an ORF. -/
theorem degenerate_closure_skipped (stopCodons : List Codon)
    (minLength maxLength maxGaps : Nat) (strand : Strand) (seq : List Nat)
    (st : FrameState) (p : Nat)
    (hin : st.isInsideOrf = true)
    (hclose : (isInCodons (codonAt seq p) stopCodons || isLastWindow seq p) = true)
    (hdeg : p + (if isLastWindow seq p then 3 else 0) = st.fromPos) :
    closePhase stopCodons minLength maxLength maxGaps strand seq st p
      = ({ st with isInsideOrf := false }, none) := by
  unfold closePhase
  rw [hin]
  rw [hclose]
  simp [hdeg]

/-- Witness for C6: the stop `TAA` at position 0 of `TAAATGCCC`, phase 0 in its
seeded state after the accounting stage. -/
theorem degenerate_closure_skipped_witness :
    closePhase [(84, 65, 65)] 0 100 0 .STRAND_PLUS
        [84, 65, 65, 65, 84, 71, 67, 67, 67] ⟨true, false, 0, 1, 0⟩ 0
      = ({ (⟨true, false, 0, 1, 0⟩ : FrameState) with isInsideOrf := false }, none) :=
  degenerate_closure_skipped [(84, 65, 65)] 0 100 0 .STRAND_PLUS
    [84, 65, 65, 65, 84, 71, 67, 67, 67] ⟨true, false, 0, 1, 0⟩ 0
    (by decide) (by decide) (by decide)

lemma numPositions_le (L : Nat) : numPositions L ≤ L := by
  unfold numPositions
  omega

lemma scanAux_succ (startCodons stopCodons : List Codon) (seq : List Nat)
    (result0 : List SequenceLocation) (minLength maxLength maxGaps frames : Nat)
    (startMode : StartMode) (strand : Strand) (n : Nat) :
    scanAux startCodons stopCodons seq result0 minLength maxLength maxGaps frames
        startMode strand (n + 1)
      = scanStep startCodons stopCodons minLength maxLength maxGaps frames
          startMode strand seq
          (scanAux startCodons stopCodons seq result0 minLength maxLength maxGaps
            frames startMode strand n) n := by
  unfold scanAux
  rw [List.range_succ, List.foldl_append]
  rfl

lemma frame_setFrame_self (s : ScanState) (f : Nat) (st : FrameState) :
    (s.setFrame f st).frame f = st := by
  unfold ScanState.frame ScanState.setFrame
  split_ifs <;> rfl

lemma frame_setFrame_other (s : ScanState) (f g : Nat) (hf : f < 3) (hg : g < 3)
    (hne : g ≠ f) (st : FrameState) :
    (s.setFrame f st).frame g = s.frame g := by
  unfold ScanState.frame ScanState.setFrame
  split_ifs <;> first | rfl | omega

lemma frame_result_update (x : ScanState) (r : List SequenceLocation) (g : Nat) :
    ScanState.frame { x with result := r } g = x.frame g := by
  unfold ScanState.frame
  split_ifs <;> rfl

lemma visitedCount_succ (f lo n : Nat) :
    visitedCount f lo (n + 1)
      = visitedCount f lo n + (if n % 3 = f ∧ lo ≤ n then 1 else 0) := by
  unfold visitedCount
  rw [List.range_succ, List.filter_append, List.length_append]
  congr 1
  by_cases h1 : n % 3 = f <;> by_cases h2 : lo ≤ n <;>
    simp [List.filter_cons, h1, h2]

lemma gapVisited_succ (seq : List Nat) (f lo n : Nat) :
    gapVisited seq f lo (n + 1)
      = gapVisited seq f lo n
        + (if n % 3 = f ∧ lo ≤ n ∧ isGapOrN (codonAt seq n) = true then 1 else 0) := by
  unfold gapVisited
  rw [List.range_succ, List.filter_append, List.length_append]
  congr 1
  by_cases h1 : n % 3 = f <;> by_cases h2 : lo ≤ n <;>
    by_cases h3 : isGapOrN (codonAt seq n) = true <;>
    simp [List.filter_cons, h1, h2, h3]

lemma visitedCount_eq_zero (f lo n : Nat) (h : n ≤ lo) : visitedCount f lo n = 0 := by
  unfold visitedCount
  rw [List.length_eq_zero, List.filter_eq_nil]
  intro q hq
  have hqn : q < n := List.mem_range.mp hq
  simp only [Bool.and_eq_true, beq_iff_eq, decide_eq_true_eq]
  intro hcon
  omega

lemma gapVisited_eq_zero (seq : List Nat) (f lo n : Nat) (h : n ≤ lo) :
    gapVisited seq f lo n = 0 := by
  unfold gapVisited
  rw [List.length_eq_zero, List.filter_eq_nil]
  intro q hq
  have hqn : q < n := List.mem_range.mp hq
  simp only [Bool.and_eq_true, beq_iff_eq, decide_eq_true_eq]
  intro hcon
  have := hcon.1.2
  omega

lemma byteAt_eq_of_ge (seq : List Nat) (i : Nat) (h : seq.length ≤ i) :
    byteAt seq i = CHAR_MAX := by
  unfold byteAt
  exact List.getD_eq_default _ _ h

lemma isIncomplete_false_le (seq : List Nat) (p : Nat)
    (h : isIncomplete (codonAt seq p) = false) : p + 3 ≤ seq.length := by
  by_contra hgt
  have h2 : byteAt seq (p + 2) = CHAR_MAX := byteAt_eq_of_ge seq (p + 2) (by omega)
  unfold isIncomplete codonAt at h
  simp [h2] at h

lemma isLastWindow_le (seq : List Nat) (p : Nat) (h : isLastWindow seq p = true) :
    p + 3 ≤ seq.length := by
  unfold isLastWindow at h
  rw [Bool.and_eq_true] at h
  apply isIncomplete_false_le seq p
  cases hb : isIncomplete (codonAt seq p)
  · rfl
  · rw [hb] at h
    simp at h

lemma startPhase_cases (startCodons : List Codon) (startMode : StartMode)
    (seq : List Nat) (st : FrameState) (p : Nat) :
    startPhase startCodons startMode seq st p = st ∨
    startPhase startCodons startMode seq st p = takeStart st p := by
  unfold startPhase
  split
  · right; rfl
  · left; rfl

lemma accountPhase_of_inside (seq : List Nat) (st : FrameState) (p : Nat)
    (h : st.isInsideOrf = true) :
    accountPhase seq st p
      = { st with countLength := st.countLength + 1,
                  countGaps := st.countGaps
                    + (if isGapOrN (codonAt seq p) then 1 else 0) } := by
  simp [accountPhase, h]

lemma closePhase_fst (stopCodons : List Codon) (minLength maxLength maxGaps : Nat)
    (strand : Strand) (seq : List Nat) (st : FrameState) (p : Nat) :
    (closePhase stopCodons minLength maxLength maxGaps strand seq st p).1
      = if st.isInsideOrf
           && (isInCodons (codonAt seq p) stopCodons || isLastWindow seq p)
        then { st with isInsideOrf := false } else st := by
  unfold closePhase
  split_ifs <;> rfl

lemma closePhase_emit (stopCodons : List Codon) (minLength maxLength maxGaps : Nat)
    (strand : Strand) (seq : List Nat) (st : FrameState) (p : Nat)
    (loc : SequenceLocation)
    (h : (closePhase stopCodons minLength maxLength maxGaps strand seq st p).2
      = some loc) :
    st.isInsideOrf = true ∧
    loc.fromPos = st.fromPos ∧
    loc.toPos = p + (if isLastWindow seq p then 3 else 0) ∧
    loc.toPos ≠ st.fromPos ∧
    loc.strand = strand ∧
    st.countGaps ≤ maxGaps ∧ minLength < st.countLength ∧
    st.countLength ≤ maxLength := by
  unfold closePhase at h
  by_cases h1 : (st.isInsideOrf
      && (isInCodons (codonAt seq p) stopCodons || isLastWindow seq p)) = true
  · rw [if_pos h1] at h
    by_cases h2 : p + (if isLastWindow seq p then 3 else 0) = st.fromPos
    · rw [if_pos h2] at h
      exact absurd h (by simp)
    · rw [if_neg h2] at h
      by_cases h3 : st.countGaps > maxGaps ∨ st.countLength > maxLength
          ∨ st.countLength ≤ minLength
      · rw [if_pos h3] at h
        exact absurd h (by simp)
      · rw [if_neg h3] at h
        have hin : st.isInsideOrf = true := by
          have h1c := h1
          simp only [Bool.and_eq_true] at h1c
          exact h1c.1
        have hloc := (Option.some_inj.mp h).symm
        subst hloc
        push_neg at h3
        exact ⟨hin, rfl, rfl, h2, rfl, by omega, by omega, by omega⟩
  · rw [if_neg h1] at h
    exact absurd h (by simp)

lemma closePhase_none_of_bad (stopCodons : List Codon)
    (minLength maxLength maxGaps : Nat) (strand : Strand) (seq : List Nat)
    (st : FrameState) (p : Nat)
    (hbad : st.countGaps > maxGaps ∨ st.countLength > maxLength
      ∨ st.countLength ≤ minLength) :
    (closePhase stopCodons minLength maxLength maxGaps strand seq st p).2 = none := by
  unfold closePhase
  by_cases h1 : (st.isInsideOrf
      && (isInCodons (codonAt seq p) stopCodons || isLastWindow seq p)) = true
  · rw [if_pos h1]
    by_cases h2 : p + (if isLastWindow seq p then 3 else 0) = st.fromPos
    · rw [if_pos h2]
    · rw [if_neg h2, if_pos hbad]
  · rw [if_neg h1]

lemma processWindow_emit_ok (startCodons stopCodons : List Codon)
    (minLength maxLength maxGaps : Nat) (startMode : StartMode) (strand : Strand)
    (seq : List Nat) (st : FrameState) (n : Nat) (loc : SequenceLocation)
    (hnL : n < seq.length)
    (ha : st.fromPos % 3 = n % 3)
    (hfromle : st.fromPos ≤ n)
    (h : (processWindow startCodons stopCodons minLength maxLength maxGaps
      startMode strand seq st n).2 = some loc) :
    okLoc seq.length strand loc := by
  unfold processWindow at h
  obtain ⟨hin2, hfrom, hto, hne, hstr, -, -, -⟩ :=
    closePhase_emit stopCodons minLength maxLength maxGaps strand seq
      (accountPhase seq (startPhase startCodons startMode seq st n) n) n loc h
  have h12 : (accountPhase seq (startPhase startCodons startMode seq st n) n).fromPos
      = (startPhase startCodons startMode seq st n).fromPos :=
    accountPhase_fromPos seq _ n
  have hfrom1 : (startPhase startCodons startMode seq st n).fromPos = st.fromPos
      ∨ (startPhase startCodons startMode seq st n).fromPos = n := by
    rcases startPhase_cases startCodons startMode seq st n with hsp | hsp
    · left; rw [hsp]
    · right; rw [hsp]; rfl
  have hfm : loc.fromPos % 3 = n % 3 ∧ loc.fromPos ≤ n := by
    rcases hfrom1 with h1 | h1
    · rw [hfrom, h12, h1]; exact ⟨ha, hfromle⟩
    · rw [hfrom, h12, h1]; exact ⟨rfl, Nat.le_refl n⟩
  have hnefl : loc.toPos ≠ loc.fromPos := by
    rw [hfrom]; exact hne
  obtain ⟨hfm1, hfm2⟩ := hfm
  by_cases hlw : isLastWindow seq n = true
  · have hto3 : loc.toPos = n + 3 := by rw [hto, if_pos hlw]
    have hle : n + 3 ≤ seq.length := isLastWindow_le seq n hlw
    exact ⟨by omega, by omega, by omega, hstr⟩
  · have hto0 : loc.toPos = n := by rw [hto, if_neg hlw]; omega
    exact ⟨by omega, by omega, by omega, hstr⟩

lemma processWindow_frameInv (startCodons stopCodons : List Codon)
    (minLength maxLength maxGaps frames : Nat) (startMode : StartMode)
    (strand : Strand) (seq : List Nat) (st : FrameState) (n : Nat)
    (ha : st.fromPos % 3 = n % 3)
    (hb : st.fromPos = n % 3 ∨ st.fromPos < n)
    (hfromle : st.fromPos ≤ n)
    (hc : frames &&& frameLookup (n % 3) ≠ 0 → st.isInsideOrf = true →
      st.countLength = visitedCount (n % 3) st.fromPos n ∧
      st.countGaps = gapVisited seq (n % 3) st.fromPos n) :
    frameInv frames seq (n + 1) (n % 3)
      (processWindow startCodons stopCodons minLength maxLength maxGaps startMode
        strand seq st n).1 := by
  set st1 : FrameState := startPhase startCodons startMode seq st n with hst1
  set st2 : FrameState := accountPhase seq st1 n with hst2
  have hpw1 : (processWindow startCodons stopCodons minLength maxLength maxGaps
      startMode strand seq st n).1
      = if st2.isInsideOrf
           && (isInCodons (codonAt seq n) stopCodons || isLastWindow seq n)
        then { st2 with isInsideOrf := false } else st2 := by
    unfold processWindow
    rw [hst2, hst1]
    exact closePhase_fst stopCodons minLength maxLength maxGaps strand seq _ n
  have hfrom2 : st2.fromPos = st1.fromPos := by
    rw [hst2]
    exact accountPhase_fromPos seq st1 n
  have hfrom1 : st1.fromPos = st.fromPos ∨ st1.fromPos = n := by
    rcases startPhase_cases startCodons startMode seq st n with hsp | hsp
    · left; rw [hst1, hsp]
    · right; rw [hst1, hsp]; rfl
  have hpwfrom : (processWindow startCodons stopCodons minLength maxLength maxGaps
      startMode strand seq st n).1.fromPos = st1.fromPos := by
    rw [hpw1]
    split
    · exact hfrom2
    · exact hfrom2
  refine ⟨?_, ?_, ?_⟩
  · rw [hpwfrom]
    rcases hfrom1 with h1 | h1
    · rw [h1]; exact ha
    · rw [h1]
  · rw [hpwfrom]
    rcases hfrom1 with h1 | h1
    · rw [h1]
      rcases hb with h2 | h2
      · exact Or.inl h2
      · exact Or.inr (by omega)
    · rw [h1]
      exact Or.inr (by omega)
  · intro hmaskf hin
    rw [hpw1] at hin
    by_cases hcc : (st2.isInsideOrf
        && (isInCodons (codonAt seq n) stopCodons || isLastWindow seq n)) = true
    · rw [if_pos hcc] at hin
      simp at hin
    · rw [if_neg hcc] at hin
      have hin1 : st1.isInsideOrf = true := by
        rw [hst2, accountPhase_isInsideOrf] at hin
        exact hin
      have hst2v : st2 = { st1 with countLength := st1.countLength + 1,
                                     countGaps := st1.countGaps
                                       + (if isGapOrN (codonAt seq n) then 1 else 0) } := by
        rw [hst2]
        exact accountPhase_of_inside seq st1 n hin1
      rw [hpw1, if_neg hcc]
      rcases startPhase_cases startCodons startMode seq st n with hsp | hsp
      · have hst1v : st1 = st := by rw [hst1, hsp]
        have hstin : st.isInsideOrf = true := by rw [← hst1v]; exact hin1
        obtain ⟨hcl, hcg⟩ := hc hmaskf hstin
        constructor
        · rw [hst2v, hst1v]
          show st.countLength + 1 = visitedCount (n % 3) st.fromPos (n + 1)
          rw [visitedCount_succ, if_pos ⟨rfl, hfromle⟩]
          omega
        · rw [hst2v, hst1v]
          show st.countGaps + (if isGapOrN (codonAt seq n) then 1 else 0)
              = gapVisited seq (n % 3) st.fromPos (n + 1)
          rw [gapVisited_succ]
          by_cases hg : isGapOrN (codonAt seq n) = true
          · rw [if_pos hg, if_pos ⟨rfl, hfromle, hg⟩]
            omega
          · rw [if_neg hg, if_neg (fun hcon => hg hcon.2.2)]
            omega
      · have hst1v : st1 = takeStart st n := by rw [hst1, hsp]
        constructor
        · rw [hst2v, hst1v]
          show 0 + 1 = visitedCount (n % 3) n (n + 1)
          rw [visitedCount_succ, visitedCount_eq_zero (n % 3) n n (Nat.le_refl n),
            if_pos ⟨rfl, Nat.le_refl n⟩]
        · rw [hst2v, hst1v]
          show 0 + (if isGapOrN (codonAt seq n) then 1 else 0)
              = gapVisited seq (n % 3) n (n + 1)
          rw [gapVisited_succ, gapVisited_eq_zero seq (n % 3) n n (Nat.le_refl n)]
          by_cases hg : isGapOrN (codonAt seq n) = true
          · rw [if_pos hg, if_pos ⟨rfl, Nat.le_refl n, hg⟩]
          · rw [if_neg hg, if_neg (fun hcon => hg hcon.2.2)]

lemma scan_invariant (startCodons stopCodons : List Codon) (seq : List Nat)
    (result0 : List SequenceLocation) (minLength maxLength maxGaps frames : Nat)
    (startMode : StartMode) (strand : Strand) :
    ∀ n, n ≤ numPositions seq.length →
      scanInv result0 frames seq strand n
        (scanAux startCodons stopCodons seq result0 minLength maxLength maxGaps
          frames startMode strand n) := by
  intro n
  induction n with
  | zero =>
    intro _
    refine ⟨fun loc hloc => Or.inl hloc, ?_⟩
    intro f hf
    interval_cases f
    · exact ⟨rfl, Or.inl rfl, fun _ _ => ⟨rfl, rfl⟩⟩
    · exact ⟨rfl, Or.inl rfl, fun _ _ => ⟨rfl, rfl⟩⟩
    · exact ⟨rfl, Or.inl rfl, fun _ _ => ⟨rfl, rfl⟩⟩
  | succ n ih =>
    intro hn1
    have hn : n ≤ numPositions seq.length := Nat.le_of_succ_le hn1
    have hnL : n < seq.length := Nat.lt_of_lt_of_le hn1 (numPositions_le seq.length)
    obtain ⟨ihres, ihframe⟩ := ih hn
    rw [scanAux_succ]
    set s : ScanState := scanAux startCodons stopCodons seq result0 minLength
      maxLength maxGaps frames startMode strand n with hs
    unfold scanStep
    by_cases hmask : frames &&& frameLookup (n % 3) = 0
    · rw [if_pos hmask]
      refine ⟨ihres, ?_⟩
      intro f hf
      obtain ⟨ha, hb, hc⟩ := ihframe f hf
      refine ⟨ha, ?_, ?_⟩
      · rcases hb with hb | hb
        · exact Or.inl hb
        · exact Or.inr (by omega)
      · intro hmaskf hin
        obtain ⟨hc1, hc2⟩ := hc hmaskf hin
        by_cases hfn : n % 3 = f
        · rw [← hfn] at hmaskf
          exact absurd hmask hmaskf
        · refine ⟨?_, ?_⟩
          · rw [visitedCount_succ, if_neg (fun hcon => hfn hcon.1)]
            omega
          · rw [gapVisited_succ, if_neg (fun hcon => hfn hcon.1)]
            omega
    · rw [if_neg hmask]
      have hf3 : n % 3 < 3 := Nat.mod_lt _ (by norm_num)
      obtain ⟨ha, hb, hc⟩ := ihframe (n % 3) hf3
      have hfromle : (s.frame (n % 3)).fromPos ≤ n := by
        rcases hb with h1 | h1
        · rw [h1]
          exact Nat.mod_le n 3
        · omega
      constructor
      · intro loc hloc
        have hloc2 : loc ∈ s.result
            ++ (processWindow startCodons stopCodons minLength maxLength maxGaps
              startMode strand seq (s.frame (n % 3)) n).2.toList := hloc
        rw [List.mem_append] at hloc2
        rcases hloc2 with hl | hl
        · exact ihres loc hl
        · right
          rcases ho : (processWindow startCodons stopCodons minLength maxLength
              maxGaps startMode strand seq (s.frame (n % 3)) n).2 with _ | loc2
          · rw [ho] at hl
            simp at hl
          · rw [ho] at hl
            rw [Option.toList_some, List.mem_singleton] at hl
            rw [hl]
            exact processWindow_emit_ok startCodons stopCodons minLength maxLength
              maxGaps startMode strand seq (s.frame (n % 3)) n loc2 hnL ha hfromle ho
      · intro f hf
        by_cases hfn : f = n % 3
        · rw [hfn]
          have hfr : ScanState.frame
              { s.setFrame (n % 3)
                  (processWindow startCodons stopCodons minLength maxLength maxGaps
                    startMode strand seq (s.frame (n % 3)) n).1 with
                result := s.result ++
                  (processWindow startCodons stopCodons minLength maxLength maxGaps
                    startMode strand seq (s.frame (n % 3)) n).2.toList } (n % 3)
              = (processWindow startCodons stopCodons minLength maxLength maxGaps
                  startMode strand seq (s.frame (n % 3)) n).1 := by
            rw [frame_result_update, frame_setFrame_self]
          rw [hfr]
          exact processWindow_frameInv startCodons stopCodons minLength maxLength
            maxGaps frames startMode strand seq (s.frame (n % 3)) n ha hb hfromle hc
        · have hfr : ScanState.frame
              { s.setFrame (n % 3)
                  (processWindow startCodons stopCodons minLength maxLength maxGaps
                    startMode strand seq (s.frame (n % 3)) n).1 with
                result := s.result ++
                  (processWindow startCodons stopCodons minLength maxLength maxGaps
                    startMode strand seq (s.frame (n % 3)) n).2.toList } f
              = s.frame f := by
            rw [frame_result_update, frame_setFrame_other s (n % 3) f hf3 hf hfn]
          rw [hfr]
          obtain ⟨ha2, hb2, hc2⟩ := ihframe f hf
          refine ⟨ha2, ?_, ?_⟩
          · rcases hb2 with h1 | h1
            · exact Or.inl h1
            · exact Or.inr (by omega)
          · intro hmaskf hin
            obtain ⟨hc1, hc2x⟩ := hc2 hmaskf hin
            refine ⟨?_, ?_⟩
            · rw [visitedCount_succ, if_neg (fun hcon => hfn hcon.1.symm)]
              omega
            · rw [gapVisited_succ, if_neg (fun hcon => hfn hcon.1.symm)]
              omega

/-- C3: every SequenceLocation appended to the result vector by `findForward` —
and hence by `findAll` — under any sequence, any codon tables, any start mode,
any frame masks and any filter parameters, satisfies `to > from`. (A location of
the final result either was already in the incoming vector or was appended.) -/
theorem emitted_to_gt_from :
    (∀ (startCodons stopCodons : List Codon) (seq : List Nat)
      (result0 : List SequenceLocation) (minLength maxLength maxGaps frames : Nat)
      (startMode : StartMode) (strand : Strand) (loc : SequenceLocation),
      loc ∈ findForward startCodons stopCodons seq result0 minLength maxLength
        maxGaps frames startMode strand →
      loc ∈ result0 ∨ loc.fromPos < loc.toPos) ∧
    (∀ (startCodons stopCodons : List Codon) (orf : Orf)
      (result0 : List SequenceLocation)
      (minLength maxLength maxGaps forwardFrames reverseFrames : Nat)
      (startMode : StartMode) (loc : SequenceLocation),
      loc ∈ findAll startCodons stopCodons orf result0 minLength maxLength maxGaps
        forwardFrames reverseFrames startMode →
      loc ∈ result0 ∨ loc.fromPos < loc.toPos) := by
  have hfwd : ∀ (startCodons stopCodons : List Codon) (seq : List Nat)
      (result0 : List SequenceLocation) (minLength maxLength maxGaps frames : Nat)
      (startMode : StartMode) (strand : Strand) (loc : SequenceLocation),
      loc ∈ findForward startCodons stopCodons seq result0 minLength maxLength
        maxGaps frames startMode strand →
      loc ∈ result0 ∨ loc.fromPos < loc.toPos := by
    intro startCodons stopCodons seq result0 minLength maxLength maxGaps frames
      startMode strand loc hmem
    obtain ⟨hres, -⟩ := scan_invariant startCodons stopCodons seq result0 minLength
      maxLength maxGaps frames startMode strand (numPositions seq.length)
      (Nat.le_refl _)
    rcases hres loc hmem with h | h
    · exact Or.inl h
    · exact Or.inr h.1
  refine ⟨hfwd, ?_⟩
  intro startCodons stopCodons orf result0 minLength maxLength maxGaps
    forwardFrames reverseFrames startMode loc hmem
  unfold findAll at hmem
  by_cases h2 : reverseFrames ≠ 0
  · rw [if_pos h2] at hmem
    rcases hfwd _ _ _ _ _ _ _ _ _ _ _ hmem with hin | hlt
    · by_cases h1 : forwardFrames ≠ 0
      · rw [if_pos h1] at hin
        exact hfwd _ _ _ _ _ _ _ _ _ _ _ hin
      · rw [if_neg h1] at hin
        exact Or.inl hin
    · exact Or.inr hlt
  · rw [if_neg h2] at hmem
    by_cases h1 : forwardFrames ≠ 0
    · rw [if_pos h1] at hmem
      exact hfwd _ _ _ _ _ _ _ _ _ _ _ hmem
    · rw [if_neg h1] at hmem
      exact Or.inl hmem

/-- Witness for C3: the location emitted on `ATGAAATAA`. -/
theorem emitted_to_gt_from_witness :
    (⟨0, 9, true, false, .STRAND_PLUS⟩ : SequenceLocation)
        ∈ ([] : List SequenceLocation)
      ∨ (⟨0, 9, true, false, .STRAND_PLUS⟩ : SequenceLocation).fromPos
          < (⟨0, 9, true, false, .STRAND_PLUS⟩ : SequenceLocation).toPos :=
  emitted_to_gt_from.1 [(65, 84, 71)] [(84, 65, 65)]
    [65, 84, 71, 65, 65, 65, 84, 65, 65] [] 0 100 0 1 .START_TO_STOP .STRAND_PLUS
    ⟨0, 9, true, false, .STRAND_PLUS⟩ (by decide)

/-- C10: every location appended by `findForward` over a buffer of content
length `L = seq.length` spans a positive multiple of 3 bytes (whole codons) and
ends within the real content (`to ≤ L`), so the view `getSequence` returns for it
over the strand's buffer has exactly the requested length — it lies entirely
inside the real (non-sentinel) content. -/
theorem emitted_span_in_buffer (startCodons stopCodons : List Codon)
    (seq : List Nat) (result0 : List SequenceLocation)
    (minLength maxLength maxGaps frames : Nat) (startMode : StartMode)
    (strand : Strand) (loc : SequenceLocation) (orf : Orf)
    (hmem : loc ∈ findForward startCodons stopCodons seq result0 minLength
      maxLength maxGaps frames startMode strand)
    (hnew : loc ∉ result0) :
    0 < loc.toPos - loc.fromPos ∧ (loc.toPos - loc.fromPos) % 3 = 0 ∧
    loc.toPos ≤ seq.length ∧
    (loc.strand = .STRAND_PLUS → orf.sequence = seq →
      (getSequence orf loc).1.length = loc.toPos - loc.fromPos ∧
      (getSequence orf loc).2 = loc.toPos - loc.fromPos) ∧
    (loc.strand = .STRAND_MINUS → orf.reverseComplement = seq →
      (getSequence orf loc).1.length = loc.toPos - loc.fromPos ∧
      (getSequence orf loc).2 = loc.toPos - loc.fromPos) := by
  obtain ⟨hres, -⟩ := scan_invariant startCodons stopCodons seq result0 minLength
    maxLength maxGaps frames startMode strand (numPositions seq.length)
    (Nat.le_refl _)
  rcases hres loc hmem with h | h
  · exact absurd h hnew
  obtain ⟨hlt, hle, hmod, hstr⟩ := h
  refine ⟨by omega, hmod, hle, ?_, ?_⟩
  · intro hsp hseq
    simp only [getSequence, hsp, hseq]
    refine ⟨?_, trivial⟩
    rw [List.length_take, List.length_drop]
    omega
  · intro hsp hseq
    simp only [getSequence, hsp, hseq]
    refine ⟨?_, trivial⟩
    rw [List.length_take, List.length_drop]
    omega

/-- Witness for C10: the location emitted on `ATGAAATAA`, viewed through an `Orf`
holding that buffer as its forward sequence. -/
theorem emitted_span_in_buffer_witness :
    0 < (⟨0, 9, true, false, .STRAND_PLUS⟩ : SequenceLocation).toPos
        - (⟨0, 9, true, false, .STRAND_PLUS⟩ : SequenceLocation).fromPos ∧
    ((⟨0, 9, true, false, .STRAND_PLUS⟩ : SequenceLocation).toPos
        - (⟨0, 9, true, false, .STRAND_PLUS⟩ : SequenceLocation).fromPos) % 3 = 0 ∧
    (⟨0, 9, true, false, .STRAND_PLUS⟩ : SequenceLocation).toPos
        ≤ ([65, 84, 71, 65, 65, 65, 84, 65, 65] : List Nat).length ∧
    ((⟨0, 9, true, false, .STRAND_PLUS⟩ : SequenceLocation).strand = .STRAND_PLUS →
      (⟨[65, 84, 71, 65, 65, 65, 84, 65, 65],
          [84, 84, 65, 84, 84, 84, 67, 65, 84], 9⟩ : Orf).sequence
        = [65, 84, 71, 65, 65, 65, 84, 65, 65] →
      (getSequence ⟨[65, 84, 71, 65, 65, 65, 84, 65, 65],
          [84, 84, 65, 84, 84, 84, 67, 65, 84], 9⟩
          ⟨0, 9, true, false, .STRAND_PLUS⟩).1.length
        = (⟨0, 9, true, false, .STRAND_PLUS⟩ : SequenceLocation).toPos
          - (⟨0, 9, true, false, .STRAND_PLUS⟩ : SequenceLocation).fromPos ∧
      (getSequence ⟨[65, 84, 71, 65, 65, 65, 84, 65, 65],
          [84, 84, 65, 84, 84, 84, 67, 65, 84], 9⟩
          ⟨0, 9, true, false, .STRAND_PLUS⟩).2
        = (⟨0, 9, true, false, .STRAND_PLUS⟩ : SequenceLocation).toPos
          - (⟨0, 9, true, false, .STRAND_PLUS⟩ : SequenceLocation).fromPos) ∧
    ((⟨0, 9, true, false, .STRAND_PLUS⟩ : SequenceLocation).strand = .STRAND_MINUS →
      (⟨[65, 84, 71, 65, 65, 65, 84, 65, 65],
          [84, 84, 65, 84, 84, 84, 67, 65, 84], 9⟩ : Orf).reverseComplement
        = [65, 84, 71, 65, 65, 65, 84, 65, 65] →
      (getSequence ⟨[65, 84, 71, 65, 65, 65, 84, 65, 65],
          [84, 84, 65, 84, 84, 84, 67, 65, 84], 9⟩
          ⟨0, 9, true, false, .STRAND_PLUS⟩).1.length
        = (⟨0, 9, true, false, .STRAND_PLUS⟩ : SequenceLocation).toPos
          - (⟨0, 9, true, false, .STRAND_PLUS⟩ : SequenceLocation).fromPos ∧
      (getSequence ⟨[65, 84, 71, 65, 65, 65, 84, 65, 65],
          [84, 84, 65, 84, 84, 84, 67, 65, 84], 9⟩
          ⟨0, 9, true, false, .STRAND_PLUS⟩).2
        = (⟨0, 9, true, false, .STRAND_PLUS⟩ : SequenceLocation).toPos
          - (⟨0, 9, true, false, .STRAND_PLUS⟩ : SequenceLocation).fromPos) :=
  emitted_span_in_buffer [(65, 84, 71)] [(84, 65, 65)]
    [65, 84, 71, 65, 65, 65, 84, 65, 65] [] 0 100 0 1 .START_TO_STOP .STRAND_PLUS
    ⟨0, 9, true, false, .STRAND_PLUS⟩
    ⟨[65, 84, 71, 65, 65, 65, 84, 65, 65], [84, 84, 65, 84, 84, 84, 67, 65, 84], 9⟩
    (by decide) (by decide)

/-- C4: at every closing window (a phase inside an ORF meeting a stop codon or
the last window), the closing stage marks the phase outside the ORF whether or
not it emits; it emits a location only when the counters satisfy
`countGaps ≤ maxGaps` and `minLength < countLength ≤ maxLength` (minLength
exclusive, maxLength inclusive), and an ORF failing any bound is not emitted.
Moreover the counters mean what the claim says: after any number `n` of scan
positions, a mask-selected phase that is inside an ORF has `countLength` equal to
the number of its windows visited from the ORF's opening offset on, and
`countGaps` equal to the number of those windows that are gap windows. -/
theorem close_filters_and_counts :
    (∀ (stopCodons : List Codon) (minLength maxLength maxGaps : Nat)
      (strand : Strand) (seq : List Nat) (st : FrameState) (p : Nat),
      st.isInsideOrf = true →
      (isInCodons (codonAt seq p) stopCodons || isLastWindow seq p) = true →
      (closePhase stopCodons minLength maxLength maxGaps strand seq st p).1
          = { st with isInsideOrf := false } ∧
        ((closePhase stopCodons minLength maxLength maxGaps strand seq st p).2
            ≠ none →
          st.countGaps ≤ maxGaps ∧ minLength < st.countLength ∧
          st.countLength ≤ maxLength) ∧
        (st.countGaps > maxGaps ∨ st.countLength > maxLength
            ∨ st.countLength ≤ minLength →
          (closePhase stopCodons minLength maxLength maxGaps strand seq st p).2
            = none)) ∧
    (∀ (startCodons stopCodons : List Codon) (seq : List Nat)
      (result0 : List SequenceLocation) (minLength maxLength maxGaps frames : Nat)
      (startMode : StartMode) (strand : Strand) (n f : Nat),
      n ≤ numPositions seq.length → f < 3 → frames &&& frameLookup f ≠ 0 →
      ((scanAux startCodons stopCodons seq result0 minLength maxLength maxGaps
          frames startMode strand n).frame f).isInsideOrf = true →
      ((scanAux startCodons stopCodons seq result0 minLength maxLength maxGaps
            frames startMode strand n).frame f).countLength
          = visitedCount f ((scanAux startCodons stopCodons seq result0 minLength
              maxLength maxGaps frames startMode strand n).frame f).fromPos n ∧
        ((scanAux startCodons stopCodons seq result0 minLength maxLength maxGaps
            frames startMode strand n).frame f).countGaps
          = gapVisited seq f ((scanAux startCodons stopCodons seq result0 minLength
              maxLength maxGaps frames startMode strand n).frame f).fromPos n) := by
  constructor
  · intro stopCodons minLength maxLength maxGaps strand seq st p hin hclose
    refine ⟨?_, ?_, ?_⟩
    · rw [closePhase_fst, hin, hclose]
      simp
    · intro hne
      rcases ho : (closePhase stopCodons minLength maxLength maxGaps strand seq
          st p).2 with _ | loc
      · exact absurd ho hne
      · obtain ⟨-, -, -, -, -, hg, hmin, hmax⟩ :=
          closePhase_emit stopCodons minLength maxLength maxGaps strand seq st p
            loc ho
        exact ⟨hg, hmin, hmax⟩
    · intro hbad
      exact closePhase_none_of_bad stopCodons minLength maxLength maxGaps strand
        seq st p hbad
  · intro startCodons stopCodons seq result0 minLength maxLength maxGaps frames
      startMode strand n f hn hf hmaskf hin
    obtain ⟨-, hframe⟩ := scan_invariant startCodons stopCodons seq result0
      minLength maxLength maxGaps frames startMode strand n hn
    obtain ⟨-, -, hc⟩ := hframe f hf
    exact hc hmaskf hin

/-- Witness for C4: the closing stop window of `ATGAAATAA` at position 6 with the
counters the scan reaches there, and the counter meaning after 6 positions of the
same scan. -/
theorem close_filters_and_counts_witness :
    ((closePhase [(84, 65, 65)] 0 100 0 .STRAND_PLUS
          [65, 84, 71, 65, 65, 65, 84, 65, 65] ⟨true, false, 0, 3, 0⟩ 6).1
        = { (⟨true, false, 0, 3, 0⟩ : FrameState) with isInsideOrf := false } ∧
      ((closePhase [(84, 65, 65)] 0 100 0 .STRAND_PLUS
            [65, 84, 71, 65, 65, 65, 84, 65, 65] ⟨true, false, 0, 3, 0⟩ 6).2
          ≠ none →
        (⟨true, false, 0, 3, 0⟩ : FrameState).countGaps ≤ 0 ∧
        0 < (⟨true, false, 0, 3, 0⟩ : FrameState).countLength ∧
        (⟨true, false, 0, 3, 0⟩ : FrameState).countLength ≤ 100) ∧
      ((⟨true, false, 0, 3, 0⟩ : FrameState).countGaps > 0 ∨
          (⟨true, false, 0, 3, 0⟩ : FrameState).countLength > 100 ∨
          (⟨true, false, 0, 3, 0⟩ : FrameState).countLength ≤ 0 →
        (closePhase [(84, 65, 65)] 0 100 0 .STRAND_PLUS
            [65, 84, 71, 65, 65, 65, 84, 65, 65] ⟨true, false, 0, 3, 0⟩ 6).2
          = none)) ∧
    (((scanAux [(65, 84, 71)] [(84, 65, 65)] [65, 84, 71, 65, 65, 65, 84, 65, 65]
          [] 0 100 0 1 .START_TO_STOP .STRAND_PLUS 6).frame 0).countLength
        = visitedCount 0 ((scanAux [(65, 84, 71)] [(84, 65, 65)]
            [65, 84, 71, 65, 65, 65, 84, 65, 65] [] 0 100 0 1 .START_TO_STOP
            .STRAND_PLUS 6).frame 0).fromPos 6 ∧
      ((scanAux [(65, 84, 71)] [(84, 65, 65)] [65, 84, 71, 65, 65, 65, 84, 65, 65]
          [] 0 100 0 1 .START_TO_STOP .STRAND_PLUS 6).frame 0).countGaps
        = gapVisited [65, 84, 71, 65, 65, 65, 84, 65, 65] 0
            ((scanAux [(65, 84, 71)] [(84, 65, 65)]
              [65, 84, 71, 65, 65, 65, 84, 65, 65] [] 0 100 0 1 .START_TO_STOP
              .STRAND_PLUS 6).frame 0).fromPos 6) :=
  ⟨close_filters_and_counts.1 [(84, 65, 65)] 0 100 0 .STRAND_PLUS
      [65, 84, 71, 65, 65, 65, 84, 65, 65] ⟨true, false, 0, 3, 0⟩ 6
      (by decide) (by decide),
    close_filters_and_counts.2 [(65, 84, 71)] [(84, 65, 65)]
      [65, 84, 71, 65, 65, 65, 84, 65, 65] [] 0 100 0 1 .START_TO_STOP
      .STRAND_PLUS 6 0 (by decide) (by decide) (by decide) (by decide)⟩

end MMOrf
